import Mathlib

/-!
Verification development for the Thunderbots pass-generation core:
the `Passing::PassGenerator` (ai/passing/pass_generator.h), the
`CherryPickTactic` (ai/hl/stp/tactic/cherry_pick_tactic.cpp) and the
`Intent` priority accessors (ai/intent/intent.h).

Machine doubles are modelled as exact rationals (`ℚ`); the one
Euclidean distance that needs a square root is modelled in `ℝ`.
Where the repository ships only a declaration (pass_generator.cpp,
intent.cpp and the geometry/pass value types are not in the tree),
the corresponding definition is modelled from the specification and
its doc comment says so.
-/

namespace Thunderbots

/-- A 2-D point with rational coordinates, modelling `Point` from the
geometry library (only used through its `x`/`y` accessors here). -/
@[ext]
structure Point where
  x : ℚ
  y : ℚ
deriving DecidableEq, Repr

/-- An axis-aligned rectangle, modelling `Rectangle` from the geometry
library (used for the field bounds and the optional target region). -/
@[ext]
structure Rectangle where
  xMin : ℚ
  yMin : ℚ
  xMax : ℚ
  yMax : ℚ
deriving DecidableEq, Repr

/-- Membership of a point in a rectangle (inclusive bounds). -/
def Rectangle.containsPoint (r : Rectangle) (p : Point) : Prop :=
  r.xMin ≤ p.x ∧ p.x ≤ r.xMax ∧ r.yMin ≤ p.y ∧ p.y ≤ r.yMax

instance (r : Rectangle) (p : Point) : Decidable (r.containsPoint p) := by
  unfold Rectangle.containsPoint; infer_instance

/-- A robot on a team: an id and a position. -/
@[ext]
structure Robot where
  id : ℕ
  position : Point
deriving DecidableEq, Repr

/-- The ball: position and velocity. -/
@[ext]
structure Ball where
  position : Point
  velocity : Point
deriving DecidableEq, Repr

/-- A world snapshot: ball, friendly robots, enemy robots and the field
bounds, treated as an immutable value (spec §3). -/
@[ext]
structure World where
  ball : Ball
  friendlyTeam : List Robot
  enemyTeam : List Robot
  field : Rectangle
deriving DecidableEq, Repr

/-- A candidate pass, modelling the `Pass` value type
(passer location, receiver location, pass speed, start time). -/
@[ext]
structure Pass where
  passer_point : Point
  receiver_point : Point
  pass_speed : ℚ
  start_time : ℚ
deriving DecidableEq, Repr

/-- Modelled from the spec: the population and the best-known slot are
"seeded with the empty/default pass" at construction (spec §3). -/
def defaultPass : Pass :=
  { passer_point := ⟨0, 0⟩, receiver_point := ⟨0, 0⟩
    pass_speed := 0, start_time := 0 }

/-- Squared Euclidean distance between two points (kept in `ℚ`). -/
def sqDist (p q : Point) : ℚ :=
  (p.x - q.x) ^ 2 + (p.y - q.y) ^ 2

/-- Clamp a rational into the interval `[0, 1]`. -/
def clamp01 (x : ℚ) : ℚ := max 0 (min 1 x)

theorem clamp01_nonneg (x : ℚ) : 0 ≤ clamp01 x := le_max_left _ _

theorem clamp01_le_one (x : ℚ) : clamp01 x ≤ 1 := by
  unfold clamp01
  exact max_le zero_le_one (min_le_left 1 x)

/-- Modelled from the spec: the "distance-based feasibility of the
passer reaching the required kick state by start_time" factor of the
quality function (`ratePass` in pass_generator.cpp is not in the
source tree).  Clamped into `[0, 1]`. -/
def feasibilityScore (p : Pass) (w : World) : ℚ :=
  clamp01 (1 - sqDist w.ball.position p.passer_point / (1 + p.start_time ^ 2))

/-- Modelled from the spec: the "line-of-sight/interception risk from
opposing robots" factor of the quality function — the clamped minimum
clearance between any enemy robot and the receiver point.  Always in
`[0, 1]`. -/
def enemyClearance (p : Pass) (w : World) : ℚ :=
  w.enemyTeam.foldr (fun r acc => min (clamp01 (sqDist r.position p.receiver_point)) acc) 1

/-- Modelled from the spec: the "conformance of the receiver point to
the target region" factor of the quality function: `1` when no region
is set or the receiver point is inside it, `0` otherwise. -/
def regionConformance (p : Pass) (tr : Option Rectangle) : ℚ :=
  match tr with
  | none => 1
  | some r => if r.containsPoint p.receiver_point then 1 else 0

/-- Modelled from the spec: `ratePass` (pass_generator.cpp is not in
the source tree) — a pure function of the pass, the world and the
target region, combining distance-based feasibility, interception
risk and target-region conformance, with output in `[0, 1]`. -/
def ratePass (p : Pass) (w : World) (tr : Option Rectangle) : ℚ :=
  feasibilityScore p w * enemyClearance p w * regionConformance p tr

theorem feasibilityScore_nonneg (p : Pass) (w : World) : 0 ≤ feasibilityScore p w :=
  clamp01_nonneg _

theorem feasibilityScore_le_one (p : Pass) (w : World) : feasibilityScore p w ≤ 1 :=
  clamp01_le_one _

theorem enemyClearance_nonneg (p : Pass) (w : World) : 0 ≤ enemyClearance p w := by
  unfold enemyClearance
  induction w.enemyTeam with
  | nil => exact zero_le_one
  | cons r rest ih =>
      exact le_min (clamp01_nonneg _) ih

theorem enemyClearance_le_one (p : Pass) (w : World) : enemyClearance p w ≤ 1 := by
  unfold enemyClearance
  induction w.enemyTeam with
  | nil => exact le_refl 1
  | cons r rest ih =>
      exact le_trans (min_le_right _ _) ih

theorem regionConformance_nonneg (p : Pass) (tr : Option Rectangle) :
    0 ≤ regionConformance p tr := by
  unfold regionConformance
  cases tr with
  | none => exact zero_le_one
  | some r =>
      by_cases h : r.containsPoint p.receiver_point <;> simp [h]

theorem regionConformance_le_one (p : Pass) (tr : Option Rectangle) :
    regionConformance p tr ≤ 1 := by
  unfold regionConformance
  cases tr with
  | none => exact le_refl 1
  | some r =>
      by_cases h : r.containsPoint p.receiver_point <;> simp [h]

theorem ratePass_nonneg (p : Pass) (w : World) (tr : Option Rectangle) :
    0 ≤ ratePass p w tr :=
  mul_nonneg (mul_nonneg (feasibilityScore_nonneg p w) (enemyClearance_nonneg p w))
    (regionConformance_nonneg p tr)

theorem ratePass_le_one (p : Pass) (w : World) (tr : Option Rectangle) :
    ratePass p w tr ≤ 1 := by
  have h1 : feasibilityScore p w * enemyClearance p w ≤ 1 :=
    mul_le_one₀ (feasibilityScore_le_one p w) (enemyClearance_nonneg p w)
      (enemyClearance_le_one p w)
  have h2 : 0 ≤ feasibilityScore p w * enemyClearance p w :=
    mul_nonneg (feasibilityScore_nonneg p w) (enemyClearance_nonneg p w)
  exact mul_le_one₀ h1 (regionConformance_nonneg p tr) (regionConformance_le_one p tr)

/-! ### Optimizer parameter weights (from pass_generator.h) -/

/-- `PASS_SPACE_WEIGHT = 0.1` (pass_generator.h). -/
def PASS_SPACE_WEIGHT : ℚ := 1 / 10

/-- `PASS_TIME_WEIGHT = 0.1` (pass_generator.h). -/
def PASS_TIME_WEIGHT : ℚ := 1 / 10

/-- `PASS_SPEED_WEIGHT = 0.01` (pass_generator.h). -/
def PASS_SPEED_WEIGHT : ℚ := 1 / 100

/-- The initializer of `optimizer_param_weights` exactly as written in
pass_generator.h:
`{PASS_SPACE_WEIGHT, PASS_SPACE_WEIGHT, PASS_TIME_WEIGHT, PASS_SPEED_WEIGHT}`. -/
def optimizer_param_weights : List ℚ :=
  [PASS_SPACE_WEIGHT, PASS_SPACE_WEIGHT, PASS_TIME_WEIGHT, PASS_SPEED_WEIGHT]

/-- Modelled from the spec: `convertPassToArray` (pass_generator.cpp is
not in the source tree); the header documents the array form as
`{receiver_point.x, receiver_point.y, pass_speed_m_per_s, pass_start_time}`. -/
def convertPassToArray (p : Pass) : List ℚ :=
  [p.receiver_point.x, p.receiver_point.y, p.pass_speed, p.start_time]

/-! ### PassGenerator state -/

/-- The mutable state of a `Passing::PassGenerator`, following the data
members declared in pass_generator.h: the active world, the pending
("updated") world, the passer point, the optional passer robot id, the
optional target region, the best-known pass with its quality score
(spec §3: "a single Pass + quality score"), the candidate population,
and a seed for the injected pseudo-random source (spec §9). -/
@[ext]
structure GenState where
  world : World
  updated_world : World
  passer_point : Point
  passer_robot_id : Option ℕ
  target_region : Option Rectangle
  best_known_pass : Pass
  best_known_score : ℚ
  passes_to_optimize : List Pass
  rngSeed : ℕ
deriving DecidableEq, Repr

namespace PassGen

/-- The quality of a pass as seen by the generator's current state. -/
def qual (s : GenState) (p : Pass) : ℚ :=
  ratePass p s.world s.target_region

/-- Modelled from the spec: `setWorld` "stores world into a *pending*
slot; the background loop copies pending → active world once per
iteration" (pass_generator.cpp is not in the source tree). -/
def setWorld (s : GenState) (w : World) : GenState :=
  { s with updated_world := w }

/-- Modelled from the spec: `setPasserPoint` updates the shared passer
point (candidates are refreshed at the start of the next iteration). -/
def setPasserPoint (s : GenState) (p : Point) : GenState :=
  { s with passer_point := p }

/-- Modelled from the spec: `setPasserRobotId` updates the excluded
receiver id. -/
def setPasserRobotId (s : GenState) (i : ℕ) : GenState :=
  { s with passer_robot_id := some i }

/-- Modelled from the spec: `setTargetRegion` updates the receiver-point
constraint; a region *change* invalidates cross-region comparisons, so
it resets the best-known pass to the default seed (spec §4.1 step 4:
"The best-known value is never silently reset except when the target
region changes"). -/
def setTargetRegion (s : GenState) (tr : Option Rectangle) : GenState :=
  if tr = s.target_region then s
  else { s with target_region := tr
                best_known_pass := defaultPass
                best_known_score := 0 }

/-- Modelled from the spec: `getBestPassSoFar` "returns a snapshot copy
of the current best-known pass and its quality". -/
def getBestPassSoFar (s : GenState) : Pass × ℚ :=
  (s.best_known_pass, s.best_known_score)

/-- Iteration step 1 (spec §4.1): "Copy pending world into active world". -/
def copyWorld (s : GenState) : GenState :=
  { s with world := s.updated_world }

/-- Modelled from the spec: candidates' passer fields are refreshed
from the shared passer point at the start of each iteration
(`updatePasserPointOfAllPasses`; the other degrees of freedom are
preserved). -/
def refreshPasserPoints (s : GenState) : GenState :=
  { s with passes_to_optimize :=
      s.passes_to_optimize.map (fun p => { p with passer_point := s.passer_point }) }

/-- Modelled from the spec: one optimizer step on one candidate.  The
external local-search primitive `opt` proposes a replacement; the
failure semantics "the optimizer primitive may fail to improve a
candidate — this is not an error, it simply leaves that candidate
unchanged" keep the original whenever the proposal does not strictly
improve the quality. -/
def optimizeOnePass (opt : Pass → Pass) (s : GenState) (p : Pass) : Pass :=
  let proposed := opt p
  if qual s p < qual s proposed then proposed else p

/-- Modelled from the spec: `optimizePasses` runs exactly one step of
the external optimizer on every candidate in the population. -/
def optimizePasses (opt : Pass → Pass) (s : GenState) : GenState :=
  { s with passes_to_optimize := s.passes_to_optimize.map (optimizeOnePass opt s) }

end PassGen

/-! ### Duplicate detection and pruning order -/

/-- Modelled from the spec: the duplicate-merge tolerance configuration
knob (the dynamic-parameters sources are not in the tree). -/
def PASS_EQUAL_TOLERANCE : ℚ := 1 / 20

/-- Modelled from the spec: two candidates are duplicates when "their
parameter vectors are within a small tolerance of each other in every
dimension — not only exact equality"; the dimensions are the four
optimized ones documented for `convertPassToArray`. -/
def PassClose (p1 p2 : Pass) : Prop :=
  |p1.receiver_point.x - p2.receiver_point.x| < PASS_EQUAL_TOLERANCE ∧
  |p1.receiver_point.y - p2.receiver_point.y| < PASS_EQUAL_TOLERANCE ∧
  |p1.pass_speed - p2.pass_speed| < PASS_EQUAL_TOLERANCE ∧
  |p1.start_time - p2.start_time| < PASS_EQUAL_TOLERANCE

instance (p1 p2 : Pass) : Decidable (PassClose p1 p2) := by
  unfold PassClose; infer_instance

/-- `passesEqual`, modelled from the spec (pass_generator.cpp is not in
the source tree): the boolean duplicate test used by pruning. -/
def passesEqual (p1 p2 : Pass) : Bool :=
  decide (PassClose p1 p2)

theorem PassClose.symm {p1 p2 : Pass} (h : PassClose p1 p2) : PassClose p2 p1 := by
  obtain ⟨h1, h2, h3, h4⟩ := h
  exact ⟨by rwa [abs_sub_comm], by rwa [abs_sub_comm], by rwa [abs_sub_comm],
    by rwa [abs_sub_comm]⟩

theorem passesEqual_symm (p1 p2 : Pass) : passesEqual p1 p2 = passesEqual p2 p1 :=
  decide_eq_decide.mpr ⟨PassClose.symm, PassClose.symm⟩

/-- A deterministic lexicographic tie-break on the fields of a pass,
used to make the pruning order total (spec §4.1 step 3: any total order
is acceptable as long as it is deterministic). -/
def tieLt (a b : Pass) : Prop :=
  a.passer_point.x < b.passer_point.x ∨ (a.passer_point.x = b.passer_point.x ∧
  (a.passer_point.y < b.passer_point.y ∨ (a.passer_point.y = b.passer_point.y ∧
  (a.receiver_point.x < b.receiver_point.x ∨ (a.receiver_point.x = b.receiver_point.x ∧
  (a.receiver_point.y < b.receiver_point.y ∨ (a.receiver_point.y = b.receiver_point.y ∧
  (a.pass_speed < b.pass_speed ∨ (a.pass_speed = b.pass_speed ∧
  a.start_time < b.start_time)))))))))

instance (a b : Pass) : Decidable (tieLt a b) := by
  unfold tieLt; infer_instance

theorem tieLt_total {a b : Pass} (hne : a ≠ b) : tieLt a b ∨ tieLt b a := by
  unfold tieLt
  rcases lt_trichotomy a.passer_point.x b.passer_point.x with h1 | h1 | h1
  · exact Or.inl (Or.inl h1)
  · rcases lt_trichotomy a.passer_point.y b.passer_point.y with h2 | h2 | h2
    · exact Or.inl (Or.inr ⟨h1, Or.inl h2⟩)
    · rcases lt_trichotomy a.receiver_point.x b.receiver_point.x with h3 | h3 | h3
      · exact Or.inl (Or.inr ⟨h1, Or.inr ⟨h2, Or.inl h3⟩⟩)
      · rcases lt_trichotomy a.receiver_point.y b.receiver_point.y with h4 | h4 | h4
        · exact Or.inl (Or.inr ⟨h1, Or.inr ⟨h2, Or.inr ⟨h3, Or.inl h4⟩⟩⟩)
        · rcases lt_trichotomy a.pass_speed b.pass_speed with h5 | h5 | h5
          · exact Or.inl (Or.inr ⟨h1, Or.inr ⟨h2, Or.inr ⟨h3, Or.inr ⟨h4, Or.inl h5⟩⟩⟩⟩)
          · rcases lt_trichotomy a.start_time b.start_time with h6 | h6 | h6
            · exact Or.inl (Or.inr ⟨h1, Or.inr ⟨h2, Or.inr ⟨h3, Or.inr
                ⟨h4, Or.inr ⟨h5, h6⟩⟩⟩⟩⟩)
            · exact absurd (Pass.ext (Point.ext h1 h2) (Point.ext h3 h4) h5 h6) hne
            · exact Or.inr (Or.inr ⟨h1.symm, Or.inr ⟨h2.symm, Or.inr ⟨h3.symm, Or.inr
                ⟨h4.symm, Or.inr ⟨h5.symm, h6⟩⟩⟩⟩⟩)
          · exact Or.inr (Or.inr ⟨h1.symm, Or.inr ⟨h2.symm, Or.inr ⟨h3.symm, Or.inr
              ⟨h4.symm, Or.inl h5⟩⟩⟩⟩)
        · exact Or.inr (Or.inr ⟨h1.symm, Or.inr ⟨h2.symm, Or.inr ⟨h3.symm, Or.inl h4⟩⟩⟩)
      · exact Or.inr (Or.inr ⟨h1.symm, Or.inr ⟨h2.symm, Or.inl h3⟩⟩)
    · exact Or.inr (Or.inr ⟨h1.symm, Or.inl h2⟩)
  · exact Or.inr (Or.inl h1)

namespace PassGen

/-- The strict total pruning order: higher quality first, the
deterministic lexicographic tie-break among exactly-equal scores. -/
def RankGt (s : GenState) (a b : Pass) : Prop :=
  qual s b < qual s a ∨ (qual s a = qual s b ∧ tieLt b a)

instance (s : GenState) : ∀ a b : Pass, Decidable (RankGt s a b) := fun a b => by
  unfold RankGt; infer_instance

theorem rankGt_total {s : GenState} {a b : Pass} (hne : a ≠ b) :
    RankGt s a b ∨ RankGt s b a := by
  unfold RankGt
  rcases lt_trichotomy (qual s a) (qual s b) with h | h | h
  · exact Or.inr (Or.inl h)
  · rcases tieLt_total hne with ht | ht
    · exact Or.inr (Or.inr ⟨h.symm, ht⟩)
    · exact Or.inl (Or.inr ⟨h, ht⟩)
  · exact Or.inl (Or.inl h)

theorem rankGt_of_qual_lt {s : GenState} {a b : Pass} (h : qual s b < qual s a) :
    RankGt s a b :=
  Or.inl h

/-- The non-strict companion of `RankGt`, used as the sorting relation
in the pruning step. -/
def rankGe (s : GenState) (a b : Pass) : Prop :=
  ¬ RankGt s b a

instance (s : GenState) : DecidableRel (rankGe s) := fun a b => by
  unfold rankGe; infer_instance

end PassGen

/-! ### Pruning, regeneration, and the iteration -/

/-- Modelled from the spec: the "population size to keep after pruning"
configuration knob (`getNumPassesToKeepAfterPruning`; the
dynamic-parameters sources are not in the tree). -/
def getNumPassesToKeepAfterPruning : ℕ := 8

/-- Modelled from the spec: the "population size to optimize"
configuration knob (`getNumPassesToOptimize`). -/
def getNumPassesToOptimize : ℕ := 16

/-- A linear congruential step, modelling the injected seedable
pseudo-random source (spec §9). -/
def lcg (n : ℕ) : ℕ :=
  (1103515245 * n + 12345) % 2147483648

/-- A pseudo-random rational in `[0, 1]` drawn from a seed. -/
def unitSample (n : ℕ) : ℚ :=
  ((lcg n % 1001 : ℕ) : ℚ) / 1000

/-- A pseudo-random point inside the given rectangle (an affine map of
two unit samples onto the rectangle). -/
def samplePointIn (r : Rectangle) (seed : ℕ) : Point :=
  { x := r.xMin + (r.xMax - r.xMin) * unitSample seed
    y := r.yMin + (r.yMax - r.yMin) * unitSample (seed + 1) }

/-- Modelled from the spec: the lower end of the "reasonable operating
range" for generated pass speeds. -/
def MIN_GENERATED_PASS_SPEED : ℚ := 2

/-- Modelled from the spec: the upper end of the operating range for
generated pass speeds. -/
def MAX_GENERATED_PASS_SPEED : ℚ := 6

/-- Modelled from the spec: the upper end of the operating range for
generated start times. -/
def MAX_GENERATED_START_TIME : ℚ := 2

namespace PassGen

/-- Modelled from the spec: one freshly sampled random candidate — the
"receiver point drawn uniformly from the target region if set, else
from the field; speed and start-time drawn from a reasonable operating
range" (`generatePasses`; pass_generator.cpp is not in the source
tree). -/
def genOnePass (s : GenState) (seed : ℕ) : Pass :=
  { passer_point := s.passer_point
    receiver_point := samplePointIn (s.target_region.getD s.world.field) seed
    pass_speed := MIN_GENERATED_PASS_SPEED +
      (MAX_GENERATED_PASS_SPEED - MIN_GENERATED_PASS_SPEED) * unitSample (seed + 2)
    start_time := MAX_GENERATED_START_TIME * unitSample (seed + 3) }

/-- Modelled from the spec: `generatePasses` produces the requested
number of freshly sampled candidates, advancing the random source. -/
def generatePasses (s : GenState) (n : ℕ) : List Pass :=
  (List.range n).map (fun i => genOnePass s (s.rngSeed + 4 * i))

/-- Modelled from the spec: the discarding half of the prune step
(`pruneAndReplacePasses`; pass_generator.cpp is not in the source
tree).  Exact value-duplicates are removed, then "the lower-quality
member of each duplicate pair" is discarded (a candidate survives iff
no other candidate within the merge tolerance outranks it), the
survivors are sorted by quality, and "candidates below the keep-count"
are discarded. -/
def prunePasses (s : GenState) : List Pass :=
  let pop := s.passes_to_optimize.dedup
  let kept := pop.filter (fun p => pop.all (fun q => !(passesEqual p q && decide (RankGt s q p))))
  (List.insertionSort (rankGe s) kept).take getNumPassesToKeepAfterPruning

/-- Modelled from the spec: the full prune step — survivors of the
discard phase plus freshly sampled replacements so "the population
always explores outside the current local optimum". -/
def pruneAndReplacePasses (s : GenState) : GenState :=
  let kept := prunePasses s
  { s with passes_to_optimize := kept ++ generatePasses s (getNumPassesToOptimize - kept.length)
           rngSeed := s.rngSeed + 4 * getNumPassesToOptimize }

/-- The best candidate of the current population by quality (`none` on
an empty population). -/
def bestCandidate (s : GenState) : Option Pass :=
  match s.passes_to_optimize with
  | [] => none
  | p :: rest => some (rest.foldl (fun acc q => if qual s acc < qual s q then q else acc) p)

/-- Modelled from the spec: `saveBestPass` compares "the best candidate
in the current population against the stored best-known pass" and
replaces "the stored value only if the new candidate strictly exceeds
it in quality" (pass_generator.cpp is not in the source tree). -/
def saveBestPass (s : GenState) : GenState :=
  match bestCandidate s with
  | none => s
  | some c =>
      if s.best_known_score < qual s c then
        { s with best_known_pass := c, best_known_score := qual s c }
      else s

/-- One complete iteration of the background loop (spec §4.1): copy the
pending world, refresh passer points, optimize, prune and replace,
save the best pass. -/
def runIteration (opt : Pass → Pass) (s : GenState) : GenState :=
  saveBestPass (pruneAndReplacePasses (optimizePasses opt (refreshPasserPoints (copyWorld s))))

end PassGen

/-- The public operations of a `PassGenerator` that can be interleaved
with background iterations, as one sequence-of-calls alphabet. -/
inductive GenOp where
  | setWorldOp : World → GenOp
  | setPasserPointOp : Point → GenOp
  | setPasserRobotIdOp : ℕ → GenOp
  | setTargetRegionOp : Option Rectangle → GenOp
  | iterateOp : GenOp

/-- Whether an operation is a `setTargetRegion` call. -/
def GenOp.isSetTargetRegion : GenOp → Bool
  | GenOp.setTargetRegionOp _ => true
  | _ => false

/-- Apply one public operation (or one background iteration with
optimizer primitive `opt`) to the generator state. -/
def applyGenOp (opt : Pass → Pass) (s : GenState) : GenOp → GenState
  | GenOp.setWorldOp w => PassGen.setWorld s w
  | GenOp.setPasserPointOp p => PassGen.setPasserPoint s p
  | GenOp.setPasserRobotIdOp i => PassGen.setPasserRobotId s i
  | GenOp.setTargetRegionOp tr => PassGen.setTargetRegion s tr
  | GenOp.iterateOp => PassGen.runIteration opt s

/-! ### Monotonicity of the best-known pass -/

namespace PassGen

theorem saveBestPass_score_mono (s : GenState) :
    s.best_known_score ≤ (saveBestPass s).best_known_score := by
  unfold saveBestPass
  cases h : bestCandidate s with
  | none => exact le_refl _
  | some c =>
      by_cases hq : s.best_known_score < qual s c
      · simp [hq]
        exact le_of_lt hq
      · simp [hq]

theorem saveBestPass_strict (s : GenState)
    (h : (saveBestPass s).best_known_pass ≠ s.best_known_pass) :
    s.best_known_score < (saveBestPass s).best_known_score := by
  unfold saveBestPass at h ⊢
  cases hc : bestCandidate s with
  | none => simp [hc] at h
  | some c =>
      by_cases hq : s.best_known_score < qual s c
      · simp [hc, hq]
      · simp [hc, hq] at h

theorem runIteration_score_mono (opt : Pass → Pass) (s : GenState) :
    s.best_known_score ≤ (runIteration opt s).best_known_score :=
  saveBestPass_score_mono _

end PassGen

theorem applyGenOp_score_mono (opt : Pass → Pass) (s : GenState) (op : GenOp)
    (h : op.isSetTargetRegion = false) :
    s.best_known_score ≤ (applyGenOp opt s op).best_known_score := by
  cases op with
  | setWorldOp w => exact le_refl _
  | setPasserPointOp p => exact le_refl _
  | setPasserRobotIdOp i => exact le_refl _
  | setTargetRegionOp tr => exact absurd h (by simp [GenOp.isSetTargetRegion])
  | iterateOp => exact PassGen.runIteration_score_mono opt s

theorem foldl_genOps_score_mono (opt : Pass → Pass) (ops : List GenOp) (s : GenState)
    (h : ∀ op ∈ ops, op.isSetTargetRegion = false) :
    s.best_known_score ≤ (ops.foldl (applyGenOp opt) s).best_known_score := by
  induction ops generalizing s with
  | nil => exact le_refl _
  | cons op rest ih =>
      have h1 : op.isSetTargetRegion = false := h op (List.mem_cons_self op rest)
      have h2 : ∀ o ∈ rest, o.isSetTargetRegion = false :=
        fun o ho => h o (List.mem_cons_of_mem op ho)
      exact le_trans (applyGenOp_score_mono opt s op h1) (ih _ h2)

/-- A concrete world for witnesses. -/
def exampleWorld : World :=
  { ball := ⟨⟨0, 0⟩, ⟨0, 0⟩⟩
    friendlyTeam := []
    enemyTeam := [⟨3, ⟨2, 1⟩⟩]
    field := ⟨-9/2, -3, 9/2, 3⟩ }

/-- A concrete generator state for witnesses. -/
def exampleGen : GenState :=
  { world := exampleWorld
    updated_world := exampleWorld
    passer_point := ⟨0, 0⟩
    passer_robot_id := none
    target_region := none
    best_known_pass := defaultPass
    best_known_score := 0
    passes_to_optimize := []
    rngSeed := 0 }

/-- C1: across any sequence of generator operations that contains no
`setTargetRegion` call, the quality score returned by
`getBestPassSoFar` is monotone non-decreasing, and `saveBestPass`
replaces the stored best-known pass only when the new candidate's
quality strictly exceeds the stored quality. -/
theorem C1_best_pass_monotone (opt : Pass → Pass) (s : GenState) (ops : List GenOp)
    (h : ∀ op ∈ ops, op.isSetTargetRegion = false) :
    (PassGen.getBestPassSoFar s).2 ≤
      (PassGen.getBestPassSoFar (ops.foldl (applyGenOp opt) s)).2 ∧
    (∀ s' : GenState, (PassGen.saveBestPass s').best_known_pass ≠ s'.best_known_pass →
      s'.best_known_score < (PassGen.saveBestPass s').best_known_score) :=
  ⟨foldl_genOps_score_mono opt ops s h, fun s' h' => PassGen.saveBestPass_strict s' h'⟩

/-- Witness for C1 at a concrete state and a concrete operation
sequence (one `setWorld`, one background iteration). -/
theorem C1_best_pass_monotone_witness :
    (PassGen.getBestPassSoFar exampleGen).2 ≤
      (PassGen.getBestPassSoFar
        ([GenOp.setWorldOp exampleWorld, GenOp.iterateOp].foldl (applyGenOp id) exampleGen)).2 ∧
    (∀ s' : GenState, (PassGen.saveBestPass s').best_known_pass ≠ s'.best_known_pass →
      s'.best_known_score < (PassGen.saveBestPass s').best_known_score) :=
  C1_best_pass_monotone id exampleGen [GenOp.setWorldOp exampleWorld, GenOp.iterateOp]
    (by intro op hop
        rcases List.mem_cons.mp hop with h1 | h1
        · subst h1; rfl
        · rcases List.mem_cons.mp h1 with h2 | h2
          · subst h2; rfl
          · exact absurd h2 (List.not_mem_nil op))

/-- A concrete pass for witnesses. -/
def examplePass : Pass :=
  { passer_point := ⟨0, 0⟩, receiver_point := ⟨3, 1⟩, pass_speed := 4, start_time := 1 }

/-- C2: `ratePass` is a pure, deterministic function of the pass, the
world and the target region whose result always lies in the closed
interval `[0, 1]`. -/
theorem C2_ratePass_bounded_deterministic (p : Pass) (w : World) (tr : Option Rectangle) :
    0 ≤ ratePass p w tr ∧ ratePass p w tr ≤ 1 ∧
    (∀ (p' : Pass) (w' : World) (tr' : Option Rectangle),
      p = p' → w = w' → tr = tr' → ratePass p w tr = ratePass p' w' tr') :=
  ⟨ratePass_nonneg p w tr, ratePass_le_one p w tr,
    fun p' w' tr' hp hw htr => by rw [hp, hw, htr]⟩

/-- Witness for C2 at a concrete pass and world, with the determinism
hypotheses discharged by `rfl`. -/
theorem C2_ratePass_bounded_deterministic_witness :
    (0 ≤ ratePass examplePass exampleWorld none ∧
      ratePass examplePass exampleWorld none ≤ 1) ∧
    ratePass examplePass exampleWorld none = ratePass examplePass exampleWorld none :=
  ⟨⟨(C2_ratePass_bounded_deterministic examplePass exampleWorld none).1,
    (C2_ratePass_bounded_deterministic examplePass exampleWorld none).2.1⟩,
    (C2_ratePass_bounded_deterministic examplePass exampleWorld none).2.2
      examplePass exampleWorld none rfl rfl rfl⟩

/-- C3: the per-dimension step-scale weights do NOT line up with the
documented parameter order.  The optimized vector is documented as
`{receiver x, receiver y, pass_speed, pass_start_time}`, but the
initializer of `optimizer_param_weights` in pass_generator.h hands
`PASS_TIME_WEIGHT` to dimension 2 (the pass-speed dimension) and
`PASS_SPEED_WEIGHT` to dimension 3 (the start-time dimension), and the
two weights differ (`0.01 < 0.1`), so the speed and time dimensions
receive each other's weights. -/
theorem C3_weight_dimension_mismatch :
    (convertPassToArray examplePass).get ⟨2, by decide⟩ = examplePass.pass_speed ∧
    (convertPassToArray examplePass).get ⟨3, by decide⟩ = examplePass.start_time ∧
    optimizer_param_weights.get ⟨2, by decide⟩ = PASS_TIME_WEIGHT ∧
    optimizer_param_weights.get ⟨3, by decide⟩ = PASS_SPEED_WEIGHT ∧
    PASS_SPEED_WEIGHT < PASS_TIME_WEIGHT :=
  ⟨rfl, rfl, rfl, rfl, by norm_num [PASS_SPEED_WEIGHT, PASS_TIME_WEIGHT]⟩

/-! ### Duplicate-merge properties of the prune step -/

namespace PassGen

theorem kept_no_outranking_duplicate (s : GenState) {b : Pass}
    (hb : b ∈ (s.passes_to_optimize.dedup).filter
      (fun p => (s.passes_to_optimize.dedup).all
        (fun q => !(passesEqual p q && decide (RankGt s q p)))))
    {a : Pass} (ha : a ∈ s.passes_to_optimize.dedup)
    (heq : passesEqual b a = true) (hr : RankGt s a b) : False := by
  have hpred := (List.mem_filter.mp hb).2
  have hall := List.all_eq_true.mp hpred a ha
  simp only [Bool.not_eq_true', Bool.and_eq_false_iff, decide_eq_false_iff_not] at hall
  rcases hall with h | h
  · rw [heq] at h; exact Bool.noConfusion h
  · exact h hr

theorem prunePasses_pairwise_not_close (s : GenState) :
    (prunePasses s).Pairwise (fun a b => ¬ passesEqual a b = true) := by
  unfold prunePasses
  have hnd : ((s.passes_to_optimize.dedup).filter
      (fun p => (s.passes_to_optimize.dedup).all
        (fun q => !(passesEqual p q && decide (RankGt s q p))))).Nodup :=
    (List.nodup_dedup _).filter _
  have hpw : ((s.passes_to_optimize.dedup).filter
      (fun p => (s.passes_to_optimize.dedup).all
        (fun q => !(passesEqual p q && decide (RankGt s q p))))).Pairwise
        (fun a b => ¬ passesEqual a b = true) := by
    refine List.Pairwise.imp_of_mem ?_ hnd
    intro a b ha hb hab
    intro heq
    rcases rankGt_total hab with hr | hr
    · exact kept_no_outranking_duplicate s hb ((List.mem_filter.mp ha).1)
        (by rwa [passesEqual_symm]) hr
    · exact kept_no_outranking_duplicate s ha ((List.mem_filter.mp hb).1) heq hr
  have hsymm : ∀ {x y : Pass}, ¬ passesEqual x y = true → ¬ passesEqual y x = true := by
    intro x y h
    rwa [passesEqual_symm]
  have hsorted := (List.Perm.pairwise_iff hsymm (List.perm_insertionSort (rankGe s) _)).mpr hpw
  exact hsorted.sublist (List.take_sublist _ _)

theorem prunePasses_subset (s : GenState) :
    ∀ p ∈ prunePasses s, p ∈ s.passes_to_optimize := by
  intro p hp
  unfold prunePasses at hp
  have h1 := (List.take_sublist _ _).subset hp
  have h2 := (List.perm_insertionSort (rankGe s) _).subset h1
  exact List.mem_dedup.mp (List.mem_filter.mp h2).1

theorem prunePasses_drops_lower_duplicate (s : GenState) :
    ∀ a ∈ s.passes_to_optimize, ∀ b ∈ s.passes_to_optimize,
      passesEqual a b = true → qual s b < qual s a → b ∉ prunePasses s := by
  intro a ha b _ heq hlt hbmem
  unfold prunePasses at hbmem
  have h1 := (List.take_sublist _ _).subset hbmem
  have h2 := (List.perm_insertionSort (rankGe s) _).subset h1
  exact kept_no_outranking_duplicate s h2 (List.mem_dedup.mpr ha)
    (by rwa [passesEqual_symm]) (rankGt_of_qual_lt hlt)

end PassGen

/-- C4: after the discard phase of a prune step, no two retained
candidates are within the merge tolerance of each other in every
dimension (at most one member of a duplicate pair remains); the
retained candidates all come from the previous population; the
lower-quality member of a duplicate pair is never retained; and the
post-step population is exactly the retained candidates plus freshly
generated replacements. -/
theorem C4_prune_merges_duplicates (s : GenState) :
    (PassGen.prunePasses s).Pairwise (fun a b => ¬ passesEqual a b = true) ∧
    (∀ p ∈ PassGen.prunePasses s, p ∈ s.passes_to_optimize) ∧
    (∀ a ∈ s.passes_to_optimize, ∀ b ∈ s.passes_to_optimize,
      passesEqual a b = true → PassGen.qual s b < PassGen.qual s a →
      b ∉ PassGen.prunePasses s) ∧
    (PassGen.pruneAndReplacePasses s).passes_to_optimize =
      PassGen.prunePasses s ++
        PassGen.generatePasses s (getNumPassesToOptimize - (PassGen.prunePasses s).length) :=
  ⟨PassGen.prunePasses_pairwise_not_close s, PassGen.prunePasses_subset s,
    PassGen.prunePasses_drops_lower_duplicate s, rfl⟩

/-- A pass within merge tolerance of `examplePass` in every optimized
dimension but with a strictly lower quality (its passer point is
farther from the ball). -/
def dupPassB : Pass :=
  { passer_point := ⟨1, 0⟩, receiver_point := ⟨3, 1⟩, pass_speed := 4, start_time := 1 }

/-- A generator state whose population holds a duplicate pair of
different qualities. -/
def dupGen : GenState :=
  { exampleGen with passes_to_optimize := [examplePass, dupPassB] }

/-- Witness for C4: in the concrete duplicate pair, the lower-quality
member is not retained by the prune step. -/
theorem C4_prune_merges_duplicates_witness :
    dupPassB ∉ PassGen.prunePasses dupGen :=
  (C4_prune_merges_duplicates dupGen).2.2.1 examplePass (by simp [dupGen]) dupPassB
    (by simp [dupGen])
    (by norm_num [passesEqual, PassClose, examplePass, dupPassB, PASS_EQUAL_TOLERANCE])
    (by norm_num [PassGen.qual, ratePass, feasibilityScore, enemyClearance,
      regionConformance, clamp01, sqDist, dupGen, exampleGen, exampleWorld, examplePass,
      dupPassB, min_def, max_def])

/-! ### CherryPickTactic (cherry_pick_tactic.cpp) -/

/-- Modelled from the spec: the pass value type's receiver orientation
(pass.h/pass.cpp are not in the source tree) — the direction from the
receiver point back toward the passer point, represented by its
direction vector to stay in `ℚ`. -/
def Pass.receiverOrientation (p : Pass) : Point :=
  ⟨p.passer_point.x - p.receiver_point.x, p.passer_point.y - p.receiver_point.y⟩

/-- Modelled from the spec: the low-level movement command produced by
the external movement primitive — a destination, an orientation and a
final speed. -/
@[ext]
structure MoveIntent where
  dest : Point
  orientation : Point
  finalSpeed : ℚ
deriving DecidableEq, Repr

/-- Modelled from the spec: `move_action.updateStateAndGetNextIntent`
(an external collaborator) translates the receiver point and receiver
orientation of a pass into the next movement command;
cherry_pick_tactic.cpp calls it with final speed `0`. -/
def mkMoveIntent (p : Pass) : MoveIntent :=
  { dest := p.receiver_point, orientation := p.receiverOrientation, finalSpeed := 0 }

/-- The state of a `CherryPickTactic`: the cached world, the target
region, and the owned `PassGenerator` (cherry_pick_tactic.h lists
these members; the .cpp uses exactly them). -/
@[ext]
structure TacticState where
  world : World
  target_region : Rectangle
  pass_generator : GenState
deriving DecidableEq, Repr

/-- Modelled from the spec: `PassGenerator` construction — it "takes an
initial world snapshot and passer point", with population and
best-known pass "seeded with the empty/default pass" (spec §3;
pass_generator.cpp is not in the source tree). -/
def initGenState (w : World) (passer : Point) : GenState :=
  { world := w
    updated_world := w
    passer_point := passer
    passer_robot_id := none
    target_region := none
    best_known_pass := defaultPass
    best_known_score := 0
    passes_to_optimize := List.replicate getNumPassesToOptimize defaultPass
    rngSeed := 0 }

namespace CherryPickTactic

/-- The `CherryPickTactic` constructor (cherry_pick_tactic.cpp): builds
the generator from the world and the ball position, caches the world
and the target region, then calls `setTargetRegion`. -/
def create (w : World) (region : Rectangle) : TacticState :=
  { world := w
    target_region := region
    pass_generator := PassGen.setTargetRegion (initGenState w w.ball.position) (some region) }

/-- `CherryPickTactic::updateParams` (cherry_pick_tactic.cpp): stores
the new world into the tactic's cached world field. -/
def updateParams (s : TacticState) (w : World) : TacticState :=
  { s with world := w }

/-- The per-axis Euclidean gap between a point and a rectangle along x
(zero when the point is within the rectangle's x-range). -/
def rectGapX (p : Point) (r : Rectangle) : ℚ :=
  max 0 (max (r.xMin - p.x) (p.x - r.xMax))

/-- The per-axis Euclidean gap between a point and a rectangle along y. -/
def rectGapY (p : Point) (r : Rectangle) : ℚ :=
  max 0 (max (r.yMin - p.y) (p.y - r.yMax))

/-- Modelled from the spec: `dist(Point, Rectangle)` from geom/util
(not in the source tree) — the Euclidean distance from a point to the
nearest point of a rectangle. -/
noncomputable def dist (p : Point) (r : Rectangle) : ℝ :=
  Real.sqrt (((rectGapX p r) ^ 2 + (rectGapY p r) ^ 2 : ℚ))

/-- `CherryPickTactic::calculateRobotCost` (cherry_pick_tactic.cpp):
`return dist(robot.position(), target_region);`.  The returned pair
exposes the (unchanged) tactic state to make the absence of writes
explicit. -/
noncomputable def calculateRobotCost (s : TacticState) (robot : Robot) (w : World) :
    ℝ × TacticState :=
  (dist robot.position s.target_region, s)

/-- One resumption of `CherryPickTactic::calculateNextIntent`
(cherry_pick_tactic.cpp): push the cached world into the owned
generator with `setWorld`, pull `getBestPassSoFar` from it, and yield
the movement command built from that snapshot's pass. -/
def calculateNextIntentStep (s : TacticState) : TacticState × MoveIntent :=
  ({ s with pass_generator := PassGen.setWorld s.pass_generator s.world },
    mkMoveIntent (PassGen.getBestPassSoFar (PassGen.setWorld s.pass_generator s.world)).1)

/-- Resume the tactic once per world in the list, performing the
`updateParams`-then-resume cycle the caller drives; yields one command
per resumption. -/
def runTactic (s : TacticState) : List World → List MoveIntent
  | [] => []
  | w :: rest =>
      (calculateNextIntentStep (updateParams s w)).2 ::
        runTactic (calculateNextIntentStep (updateParams s w)).1 rest

/-- The tactic state entering resumption `i` (before that resumption's
`updateParams`/`setWorld`). -/
def tacticStateBefore (s : TacticState) : List World → ℕ → TacticState
  | _, 0 => s
  | [], _ + 1 => s
  | w :: rest, i + 1 =>
      tacticStateBefore (calculateNextIntentStep (updateParams s w)).1 rest i

end CherryPickTactic

/-- A second concrete world (the ball has moved). -/
def exampleWorld2 : World :=
  { exampleWorld with ball := ⟨⟨1, 1⟩, ⟨0, 0⟩⟩ }

/-- A concrete target region for witnesses. -/
def exampleRegion : Rectangle := ⟨2, 0, 4, 2⟩

/-- A concrete tactic state for witnesses. -/
def exampleTactic : TacticState :=
  CherryPickTactic.create exampleWorld exampleRegion

/-- C6: resuming the tactic N times in sequence yields exactly N
movement commands, and the i-th command is built from the best-pass
snapshot pulled from the generator strictly after that resumption's
`setWorld` pushed the i-th world. -/
theorem C6_coroutine_ordering (s : TacticState) (ws : List World) :
    (CherryPickTactic.runTactic s ws).length = ws.length ∧
    ∀ (i : ℕ) (w : World), ws[i]? = some w →
      (CherryPickTactic.runTactic s ws)[i]? =
        some (mkMoveIntent (PassGen.getBestPassSoFar
          (PassGen.setWorld (CherryPickTactic.tacticStateBefore s ws i).pass_generator w)).1) := by
  induction ws generalizing s with
  | nil =>
      refine ⟨rfl, ?_⟩
      intro i w h
      simp at h
  | cons w rest ih =>
      constructor
      · simp [CherryPickTactic.runTactic, (ih _).1]
      · intro i w' h
        cases i with
        | zero =>
            simp at h
            subst h
            simp [CherryPickTactic.runTactic, CherryPickTactic.tacticStateBefore,
              CherryPickTactic.calculateNextIntentStep, CherryPickTactic.updateParams]
        | succ j =>
            simp only [List.getElem?_cons_succ] at h
            simpa [CherryPickTactic.runTactic, CherryPickTactic.tacticStateBefore]
              using (ih _).2 j w' h

/-- Witness for C6 at a concrete tactic state and a single-resumption
world sequence. -/
theorem C6_coroutine_ordering_witness :
    (CherryPickTactic.runTactic exampleTactic [exampleWorld2]).length =
      ([exampleWorld2] : List World).length ∧
    (CherryPickTactic.runTactic exampleTactic [exampleWorld2])[0]? =
      some (mkMoveIntent (PassGen.getBestPassSoFar
        (PassGen.setWorld
          (CherryPickTactic.tacticStateBefore exampleTactic [exampleWorld2] 0).pass_generator
          exampleWorld2)).1) :=
  ⟨(C6_coroutine_ordering exampleTactic [exampleWorld2]).1,
    (C6_coroutine_ordering exampleTactic [exampleWorld2]).2 0 exampleWorld2 rfl⟩

/-- C7: `calculateRobotCost` returns exactly the distance from the
robot's position to the tactic's target region and leaves the tactic
state (the owned `PassGenerator` included) untouched; its value
depends only on the robot position and the target region, so identical
such inputs always give the same cost. -/
theorem C7_robot_cost_pure (s : TacticState) (robot : Robot) (w : World) :
    CherryPickTactic.calculateRobotCost s robot w =
      (CherryPickTactic.dist robot.position s.target_region, s) ∧
    (∀ (s' : TacticState) (robot' : Robot) (w' : World),
      s'.target_region = s.target_region → robot'.position = robot.position →
      (CherryPickTactic.calculateRobotCost s' robot' w').1 =
        (CherryPickTactic.calculateRobotCost s robot w).1) :=
  ⟨rfl, fun s' robot' w' hr hp => by
    simp [CherryPickTactic.calculateRobotCost, hr, hp]⟩

/-- A tactic state with the same target region as `exampleTactic` but a
different cached world and a different generator state. -/
def exampleTacticVariant : TacticState :=
  { world := exampleWorld2, target_region := exampleRegion, pass_generator := dupGen }

/-- Witness for C7: two robots with equal positions but different ids,
evaluated against tactic states that differ in cached world and
generator state yet share the target region, get the same cost. -/
theorem C7_robot_cost_pure_witness :
    (CherryPickTactic.calculateRobotCost exampleTacticVariant ⟨9, ⟨0, 1⟩⟩ exampleWorld2).1 =
      (CherryPickTactic.calculateRobotCost exampleTactic ⟨1, ⟨0, 1⟩⟩ exampleWorld).1 :=
  (C7_robot_cost_pure exampleTactic ⟨1, ⟨0, 1⟩⟩ exampleWorld).2
    exampleTacticVariant ⟨9, ⟨0, 1⟩⟩ exampleWorld2 rfl rfl

/-- C10: `updateParams` writes the new world into the tactic's cached
world field and changes nothing else — the target region and the owned
generator state are untouched — and the new world reaches the
generator exactly when the next resumption's loop body calls
`setWorld` on it. -/
theorem C10_updateParams_frame (s : TacticState) (w : World) :
    (CherryPickTactic.updateParams s w).world = w ∧
    (CherryPickTactic.updateParams s w).target_region = s.target_region ∧
    (CherryPickTactic.updateParams s w).pass_generator = s.pass_generator ∧
    ((CherryPickTactic.calculateNextIntentStep
      (CherryPickTactic.updateParams s w)).1).pass_generator =
        PassGen.setWorld s.pass_generator w :=
  ⟨rfl, rfl, rfl, rfl⟩

/-! ### Intent priority accessors (ai/intent/intent.h) -/

/-- An `Intent`'s data members as declared in intent.h: a priority in
`[0, 100]` and the areas to avoid (the avoid-area payload is opaque
here). -/
@[ext]
structure Intent where
  priority : ℕ
  areas_to_avoid : List ℕ
deriving DecidableEq, Repr

/-- The diagnostic carried by a rejected priority value. -/
def intentPriorityError : String :=
  "intent priority must be in the range 0 to 100"

/-- Modelled from the spec: the `Intent` constructor (intent.cpp is not
in the source tree) — "priority/weight values outside documented
ranges must be rejected at the accessor boundary (fails fast, never
silently clamped)"; `priority` is a C++ `unsigned int`, so the values
outside `[0, 100]` are exactly those above `100`. -/
def Intent.create (priority : ℕ) : Except String Intent :=
  if 100 < priority then Except.error intentPriorityError
  else Except.ok { priority := priority, areas_to_avoid := [] }

/-- Modelled from the spec: `Intent::setPriority` (intent.cpp is not in
the source tree) — same loud rejection at the accessor boundary. -/
def Intent.setPriority (s : Intent) (new_priority : ℕ) : Except String Intent :=
  if 100 < new_priority then Except.error intentPriorityError
  else Except.ok { s with priority := new_priority }

/-- C8: every priority value above the documented range is rejected
loudly by both the constructor and `setPriority`: the result is an
error, never a successfully constructed or updated `Intent`, so the
out-of-range value is neither clamped nor stored. -/
theorem C8_priority_rejected (p : ℕ) (h : 100 < p) :
    Intent.create p = Except.error intentPriorityError ∧
    (∀ i : Intent, Intent.create p ≠ Except.ok i) ∧
    (∀ s : Intent, Intent.setPriority s p = Except.error intentPriorityError) ∧
    (∀ s s' : Intent, Intent.setPriority s p ≠ Except.ok s') := by
  refine ⟨?_, ?_, ?_, ?_⟩
  · simp [Intent.create, h]
  · intro i
    simp [Intent.create, h]
  · intro s
    simp [Intent.setPriority, h]
  · intro s s'
    simp [Intent.setPriority, h]

/-- Witness for C8 at the concrete out-of-range priority `101`. -/
theorem C8_priority_rejected_witness :
    Intent.create 101 = Except.error intentPriorityError ∧
    Intent.setPriority { priority := 50, areas_to_avoid := [] } 101 =
      Except.error intentPriorityError :=
  ⟨(C8_priority_rejected 101 (by norm_num)).1,
    (C8_priority_rejected 101 (by norm_num)).2.2.1 { priority := 50, areas_to_avoid := [] }⟩

/-! ### Destruction and the background worker (an interleaving model) -/

/-- The background worker's control point: at the loop boundary (where
and only where the stop flag is checked), inside one of the phases of
a single iteration, or terminated. -/
inductive WPhase where
  | boundary : WPhase
  | p1 : WPhase
  | p2 : WPhase
  | p3 : WPhase
  | done : WPhase
deriving DecidableEq, Repr

/-- The destructor's control point: not yet called, called, flag set
and joining, or returned. -/
inductive DPhase where
  | idle : DPhase
  | requested : DPhase
  | waiting : DPhase
  | returned : DPhase
deriving DecidableEq, Repr

/-- A state of the two-executor system: the `in_destructor` stop flag,
the worker's control point, the destructor's control point, the
generator state, and the number of completed iterations. -/
structure SysState where
  flag : Bool
  phase : WPhase
  dtor : DPhase
  gen : GenState
  iters : ℕ

/-- Modelled from the spec: the interleaving of the destructor and the
background worker (`~PassGenerator` / `continuouslyGeneratePasses`;
pass_generator.cpp is not in the source tree).  The worker checks the
`in_destructor` flag only at the loop boundary and otherwise runs the
iteration sub-steps of spec §4.1; the destructor sets the flag (under
its own lock, one atomic transition) and joins only once the worker
has terminated. -/
inductive SysStep (opt : Pass → Pass) : SysState → SysState → Prop where
  | exitLoop (d : DPhase) (g : GenState) (n : ℕ) :
      SysStep opt ⟨true, WPhase.boundary, d, g, n⟩ ⟨true, WPhase.done, d, g, n⟩
  | startIteration (d : DPhase) (g : GenState) (n : ℕ) :
      SysStep opt ⟨false, WPhase.boundary, d, g, n⟩
        ⟨false, WPhase.p1, d, PassGen.refreshPasserPoints (PassGen.copyWorld g), n⟩
  | optimizeStep (f : Bool) (d : DPhase) (g : GenState) (n : ℕ) :
      SysStep opt ⟨f, WPhase.p1, d, g, n⟩ ⟨f, WPhase.p2, d, PassGen.optimizePasses opt g, n⟩
  | pruneStep (f : Bool) (d : DPhase) (g : GenState) (n : ℕ) :
      SysStep opt ⟨f, WPhase.p2, d, g, n⟩
        ⟨f, WPhase.p3, d, PassGen.pruneAndReplacePasses g, n⟩
  | saveStep (f : Bool) (d : DPhase) (g : GenState) (n : ℕ) :
      SysStep opt ⟨f, WPhase.p3, d, g, n⟩
        ⟨f, WPhase.boundary, d, PassGen.saveBestPass g, n + 1⟩
  | dtorCall (f : Bool) (ph : WPhase) (g : GenState) (n : ℕ) :
      SysStep opt ⟨f, ph, DPhase.idle, g, n⟩ ⟨f, ph, DPhase.requested, g, n⟩
  | dtorSetFlag (f : Bool) (ph : WPhase) (g : GenState) (n : ℕ) :
      SysStep opt ⟨f, ph, DPhase.requested, g, n⟩ ⟨true, ph, DPhase.waiting, g, n⟩
  | dtorJoin (f : Bool) (g : GenState) (n : ℕ) :
      SysStep opt ⟨f, WPhase.done, DPhase.waiting, g, n⟩
        ⟨f, WPhase.done, DPhase.returned, g, n⟩

/-- Reachability from a freshly constructed generator with no
destruction requested. -/
inductive SysReach (opt : Pass → Pass) (g0 : GenState) : SysState → Prop where
  | init : SysReach opt g0 ⟨false, WPhase.boundary, DPhase.idle, g0, 0⟩
  | step : ∀ s s' : SysState, SysReach opt g0 s → SysStep opt s s' → SysReach opt g0 s'

/-- The generator state the worker holds at each control point after
`n` completed iterations: whole iterations at the boundary (and after
termination), the matching prefix of one iteration in between. -/
def genAtPhase (opt : Pass → Pass) (g0 : GenState) : WPhase → ℕ → GenState
  | WPhase.boundary, n => (PassGen.runIteration opt)^[n] g0
  | WPhase.done, n => (PassGen.runIteration opt)^[n] g0
  | WPhase.p1, n =>
      PassGen.refreshPasserPoints (PassGen.copyWorld ((PassGen.runIteration opt)^[n] g0))
  | WPhase.p2, n =>
      PassGen.optimizePasses opt
        (PassGen.refreshPasserPoints (PassGen.copyWorld ((PassGen.runIteration opt)^[n] g0)))
  | WPhase.p3, n =>
      PassGen.pruneAndReplacePasses (PassGen.optimizePasses opt
        (PassGen.refreshPasserPoints (PassGen.copyWorld ((PassGen.runIteration opt)^[n] g0))))

/-- The inductive invariant of the interleaving: the worker's generator
state is always a phase-consistent prefix of whole iterations, the
worker terminates only with the flag set, and the destructor returns
only after the worker has terminated. -/
def SysInv (opt : Pass → Pass) (g0 : GenState) (s : SysState) : Prop :=
  s.gen = genAtPhase opt g0 s.phase s.iters ∧
  (s.phase = WPhase.done → s.flag = true) ∧
  (s.dtor = DPhase.returned → s.phase = WPhase.done)

theorem sysReach_inv (opt : Pass → Pass) (g0 : GenState) (s : SysState)
    (hr : SysReach opt g0 s) : SysInv opt g0 s := by
  induction hr with
  | init => exact ⟨rfl, fun h => by simp at h, fun h => by simp at h⟩
  | step s s' hs hstep ih =>
      obtain ⟨hgen, hflag, hret⟩ := ih
      cases hstep with
      | exitLoop d g n =>
          exact ⟨hgen, fun _ => rfl, fun _ => rfl⟩
      | startIteration d g n =>
          refine ⟨?_, fun h => by simp at h, fun h => by simpa using hret h⟩
          simp only at hgen
          rw [hgen]
          rfl
      | optimizeStep f d g n =>
          refine ⟨?_, fun h => by simp at h, fun h => by simpa using hret h⟩
          simp only at hgen
          rw [hgen]
          rfl
      | pruneStep f d g n =>
          refine ⟨?_, fun h => by simp at h, fun h => by simpa using hret h⟩
          simp only at hgen
          rw [hgen]
          rfl
      | saveStep f d g n =>
          refine ⟨?_, fun h => by simp at h, fun h => by simpa using hret h⟩
          simp only at hgen
          rw [hgen]
          show PassGen.saveBestPass (genAtPhase opt g0 WPhase.p3 n) =
            genAtPhase opt g0 WPhase.boundary (n + 1)
          simp only [genAtPhase, Function.iterate_succ_apply']
          rfl
      | dtorCall f ph g n =>
          exact ⟨hgen, hflag, fun h => by simp at h⟩
      | dtorSetFlag f ph g n =>
          exact ⟨hgen, fun _ => rfl, fun h => by simp at h⟩
      | dtorJoin f g n =>
          exact ⟨hgen, hflag, fun _ => rfl⟩

/-- C9: in every reachable state in which the destructor has returned,
the background worker has terminated (having observed the flag, which
is set), its generator state consists of whole, fully applied
iterations — no iteration is left partially applied — and no further
transition of the system (in particular no worker step) is possible. -/
theorem C9_destruction_joins_worker (opt : Pass → Pass) (g0 : GenState) (s : SysState)
    (hr : SysReach opt g0 s) (hd : s.dtor = DPhase.returned) :
    s.phase = WPhase.done ∧ s.flag = true ∧
    s.gen = (PassGen.runIteration opt)^[s.iters] g0 ∧
    ∀ s' : SysState, ¬ SysStep opt s s' := by
  obtain ⟨hgen, hflag, hret⟩ := sysReach_inv opt g0 s hr
  have hph : s.phase = WPhase.done := hret hd
  refine ⟨hph, hflag hph, ?_, ?_⟩
  · rw [hgen, hph]
    rfl
  · intro s' hstep
    cases hstep <;> simp_all

/-- Witness for C9: a concrete reachable trace — destructor called,
flag set, worker observes it at the boundary and exits, destructor
joins — after which the system is halted with zero iterations applied. -/
theorem C9_destruction_joins_worker_witness :
    (⟨true, WPhase.done, DPhase.returned, exampleGen, 0⟩ : SysState).phase = WPhase.done ∧
    (⟨true, WPhase.done, DPhase.returned, exampleGen, 0⟩ : SysState).flag = true ∧
    (⟨true, WPhase.done, DPhase.returned, exampleGen, 0⟩ : SysState).gen =
      (PassGen.runIteration id)^[0] exampleGen ∧
    ∀ s' : SysState,
      ¬ SysStep id ⟨true, WPhase.done, DPhase.returned, exampleGen, 0⟩ s' :=
  C9_destruction_joins_worker id exampleGen _
    (SysReach.step _ _
      (SysReach.step _ _
        (SysReach.step _ _
          (SysReach.step _ _ SysReach.init
            (SysStep.dtorCall false WPhase.boundary exampleGen 0))
          (SysStep.dtorSetFlag false WPhase.boundary exampleGen 0))
        (SysStep.exitLoop DPhase.waiting exampleGen 0))
      (SysStep.dtorJoin true exampleGen 0))
    rfl
